import Mathlib

/-!
Verification of the duplicate-resolution engine of `dedupe.py`.

The embedding models the interactive resolution session of `main`
(lines 134-216 of `src/dedupe.py`) together with `move_to_archive`
(lines 127-132).  Similarity scores (Python floats compared only with `<`)
are modelled as rationals.  The filesystem is modelled as an association
list from paths (strings) to file identities (naturals), so that moving
and overwriting files is observable.  User input, rendering outcomes and
external file removals are supplied as explicit scripts, making every run
a computable function of its inputs:

* `dec : List String` - the successive answers typed at the
  `input()` prompt of line 194 (an empty list means `input()` raises
  `EOFError`, which the source does not catch);
* `ren : List ROut` - the outcome of each attempted
  `create_side_by_side_image` + `viu` rendering (lines 182-185): success,
  a `subprocess.CalledProcessError` (caught on line 187), or any other
  exception (caught on line 189, which `continue`s past the prompt);
  an exhausted script defaults to success;
* `ext : List (List String)` - batches of externally removed paths;
  one batch is consumed immediately before each candidate observation is
  examined (the moment of dequeue) and one before each `input()` read
  (while the session is blocked awaiting a decision), which is where the
  specification's "file vanished through unrelated external action" races
  can occur.
-/

namespace Dedupe

/-- Rendering outcome of one `create_side_by_side_image` + `viu` attempt:
success, a `subprocess.CalledProcessError` from `viu` (line 187), or any
other exception (line 189). -/
inductive ROut
  | ok
  | cpe
  | otherErr
deriving DecidableEq, Repr

/-- Observable events of a session, in chronological order:
`header` is the "Potential duplicates" print of lines 172-174, `present`
marks the pair passing the line-178 existence check and being displayed
and carried to its decision, `renderFail` the error prints of lines
188/190 (`viuErr` distinguishes the `CalledProcessError` branch),
`prompted` one `input()` prompt of line 194, `skippedMissing` the
"no longer exist, skipping" prints of lines 179/200, `archived` the move
performed by `move_to_archive`, `invalidChoice` the line-216 print. -/
inductive Ev
  | header (a b : String) (s : ℚ)
  | present (a b : String)
  | renderFail (a b : String) (viuErr : Bool)
  | prompted (a b : String)
  | skippedMissing (a b : String)
  | archived (src dst : String)
  | invalidChoice (a b : String)
deriving DecidableEq, Repr

/-- Session state: the filesystem (path to file-identity association list),
the `compared_pairs` set of line 151 (as a list, most recent first), the
event log, and whether the run has terminated by an uncaught exception
(`crashed`) or by the `return` of line 214 (`quit`). -/
structure St where
  fs : List (String × Nat)
  seen : List (String × String)
  evs : List Ev
  crashed : Bool
  quit : Bool
deriving DecidableEq, Repr

/-- First value bound to key `k` in the association list, if any. -/
def lookupF (k : String) : List (String × Nat) → Option Nat
  | [] => none
  | (k', v) :: t => if k' = k then some v else lookupF k t

/-- `Path.exists()` on the modelled filesystem. -/
def existsF (k : String) (fs : List (String × Nat)) : Bool :=
  (lookupF k fs).isSome

/-- Remove every binding of key `k` (the file disappears from the path). -/
def eraseF (k : String) (fs : List (String × Nat)) : List (String × Nat) :=
  fs.filter (fun kv => kv.1 ≠ k)

/-- Bind key `k` to `v`, replacing any previous binding: the destination
of a `shutil.move` is written whether or not a file was already there. -/
def setF (k : String) (v : Nat) (fs : List (String × Nat)) : List (String × Nat) :=
  (k, v) :: eraseF k fs

/-- Apply one batch of external removals. -/
def removeAll (batch : List String) (fs : List (String × Nat)) : List (String × Nat) :=
  batch.foldl (fun f p => eraseF p f) fs

/-- `Path.name`: the component after the last slash. -/
def basename (p : String) : String :=
  String.mk ((p.data.reverse.takeWhile (fun c => c ≠ '/')).reverse)

/-- `target_dir / "duplicates_archive"` of line 141. -/
def archiveDirOf (tgt : String) : String :=
  tgt ++ "/duplicates_archive"

/-- `archive_dir / path.name` of line 130. -/
def archivePathOf (archiveDir p : String) : String :=
  archiveDir ++ "/" ++ basename p

/-- `str.lower()` applied to one line of user input. -/
def lowerStr (s : String) : String :=
  String.mk (s.data.map Char.toLower)

/-- Strict lexicographic (code point) order on character lists, the order
Python's string comparison uses. -/
def strLtList : List Char → List Char → Bool
  | [], [] => false
  | [], _ :: _ => true
  | _ :: _, [] => false
  | c :: cs, d :: ds =>
      if c.toNat < d.toNat then true
      else if d.toNat < c.toNat then false
      else strLtList cs ds

/-- Strict lexicographic order on strings. -/
def strLt (a b : String) : Bool := strLtList a.data b.data

/-- `tuple(sorted([str(img1_path), str(img2_path)]))` of line 167:
the canonical unordered form of a pair of paths (smaller string first). -/
def canonPair (a b : String) : String × String :=
  if strLt b a then (b, a) else (a, b)

/-- `move_to_archive` (lines 127-132).  `archive_dir.mkdir(exist_ok=True)`
raises `FileExistsError` when a non-directory occupies the archive path,
and `shutil.move` raises when the source is missing; both exceptions are
uncaught by every caller, so they crash the session.  Otherwise the file
is moved to `archive_dir / path.name`, silently replacing any file
already recorded at that destination. -/
def move_to_archive (p archiveDir : String) (st : St) : St :=
  if existsF archiveDir st.fs then { st with crashed := true }
  else
    match lookupF p st.fs with
    | none => { st with crashed := true }
    | some v =>
        { st with
          fs := setF (archivePathOf archiveDir p) v (eraseF p st.fs),
          evs := st.evs ++ [.archived p (archivePathOf archiveDir p)] }

/-- The `while True` decision loop of lines 193-216 for the pair `(a, b)`.
Each iteration shows the prompt and reads one decision; before the read,
one batch of external removals may land (the session is blocked on the
user).  An exhausted input script is `input()` raising an uncaught
`EOFError`.  After the read, lines 199-201 re-check that both files still
exist and otherwise report and abandon the pair; then `"1"` archives the
second file if still present, `"2"` symmetrically the first, `"s"`
abandons the pair, `"q"` terminates the session, and anything else
reports "Invalid choice" and loops. -/
def promptLoop (archiveDir a b : String) :
    List String → List (List String) → St → St × List String × List (List String)
  | [], ext, st =>
      ({ st with
          fs := removeAll (ext.headD []) st.fs,
          evs := st.evs ++ [.prompted a b],
          crashed := true }, [], ext.tail)
  | d :: dec, ext, st =>
      let st1 : St :=
        { st with
          fs := removeAll (ext.headD []) st.fs,
          evs := st.evs ++ [.prompted a b] }
      let ext1 := ext.tail
      let c := lowerStr d
      if !(existsF a st1.fs) || !(existsF b st1.fs) then
        ({ st1 with evs := st1.evs ++ [.skippedMissing a b] }, dec, ext1)
      else if c = "1" then
        (if existsF b st1.fs then move_to_archive b archiveDir st1 else st1, dec, ext1)
      else if c = "2" then
        (if existsF a st1.fs then move_to_archive a archiveDir st1 else st1, dec, ext1)
      else if c = "s" then
        (st1, dec, ext1)
      else if c = "q" then
        ({ st1 with quit := true }, dec, ext1)
      else
        promptLoop archiveDir a b dec ext1
          { st1 with evs := st1.evs ++ [.invalidChoice a b] }

/-- Processing of one candidate observation `(img2, similarity)` from
`img1`'s match list (lines 159-216 of the inner loop body).  One batch of
external removals lands as the observation is dequeued; then, in source
order: the threshold filter of line 160, the `img2` existence check of
line 163, the `compared_pairs` check and insertion of lines 167-170, the
header print of lines 172-174, the in-`try` existence re-check of line
178, the rendering attempt with its two `except` clauses (only
`CalledProcessError` falls through to the prompt; any other exception
`continue`s past it), and finally the decision loop. -/
def procObs (thr : ℚ) (archiveDir img1 : String) (m : String × ℚ) (st : St)
    (dec : List String) (ren : List ROut) (ext : List (List String)) :
    St × List String × List ROut × List (List String) :=
  if st.crashed || st.quit then (st, dec, ren, ext)
  else
    let st1 : St := { st with fs := removeAll (ext.headD []) st.fs }
    let ext1 := ext.tail
    if m.2 < thr then (st1, dec, ren, ext1)
    else if !(existsF m.1 st1.fs) then (st1, dec, ren, ext1)
    else
      let pair := canonPair img1 m.1
      if pair ∈ st1.seen then (st1, dec, ren, ext1)
      else
        let st2 : St :=
          { st1 with seen := pair :: st1.seen,
                     evs := st1.evs ++ [.header img1 m.1 m.2] }
        if !(existsF img1 st2.fs) || !(existsF m.1 st2.fs) then
          ({ st2 with evs := st2.evs ++ [.skippedMissing img1 m.1] }, dec, ren, ext1)
        else
          let st3 : St := { st2 with evs := st2.evs ++ [.present img1 m.1] }
          let ren1 := ren.tail
          match ren.headD ROut.ok with
          | ROut.ok =>
              let r := promptLoop archiveDir img1 m.1 dec ext1 st3
              (r.1, r.2.1, ren1, r.2.2)
          | ROut.cpe =>
              let r := promptLoop archiveDir img1 m.1 dec ext1
                { st3 with evs := st3.evs ++ [.renderFail img1 m.1 true] }
              (r.1, r.2.1, ren1, r.2.2)
          | ROut.otherErr =>
              ({ st3 with evs := st3.evs ++ [.renderFail img1 m.1 false] },
                dec, ren1, ext1)

/-- The inner `for img2, similarity in matches` loop of line 159. -/
def runMatches (thr : ℚ) (archiveDir img1 : String) :
    List (String × ℚ) → St → List String → List ROut → List (List String) →
    St × List String × List ROut × List (List String)
  | [], st, dec, ren, ext => (st, dec, ren, ext)
  | m :: ms, st, dec, ren, ext =>
      let r := procObs thr archiveDir img1 m st dec ren ext
      runMatches thr archiveDir img1 ms r.1 r.2.1 r.2.2.1 r.2.2.2

/-- The outer `for img1, matches in similarity_dict.items()` loop of line
154, iterating entries in the map's stable insertion order.  Line 156
skips an entry whose source image no longer exists; the `return` of line
214 (`quit`) and any uncaught exception (`crashed`) stop the whole
iteration. -/
def runEntries (thr : ℚ) (archiveDir : String) :
    List (String × List (String × ℚ)) → St → List String → List ROut → List (List String) →
    St × List String × List ROut × List (List String)
  | [], st, dec, ren, ext => (st, dec, ren, ext)
  | (img1, ms) :: es, st, dec, ren, ext =>
      if st.crashed || st.quit then (st, dec, ren, ext)
      else if !(existsF img1 st.fs) then
        runEntries thr archiveDir es st dec ren ext
      else
        let r := runMatches thr archiveDir img1 ms st dec ren ext
        runEntries thr archiveDir es r.1 r.2.1 r.2.2.1 r.2.2.2

/-- Initial session state over an initial filesystem. -/
def initSt (fs0 : List (String × Nat)) : St :=
  ⟨fs0, [], [], false, false⟩

/-- One interactive resolution session over raw similarity map `raw`
(lines 150-216), with threshold `thr`, target directory `tgt`, initial
filesystem `fs0`, and the three scripts. -/
def runSession (thr : ℚ) (tgt : String) (raw : List (String × List (String × ℚ)))
    (fs0 : List (String × Nat)) (dec : List String) (ren : List ROut)
    (ext : List (List String)) : St :=
  (runEntries thr (archiveDirOf tgt) raw (initSt fs0) dec ren ext).1

/-- Top of `main` (lines 134-148): the argument-count check exits with
status 1; with a valid count, `get_similarity_dict` immediately calls
`target_dir.iterdir()` (line 36), which raises an uncaught
`FileNotFoundError` / `NotADirectoryError` when the target is not an
existing directory (`targetOk = false`), terminating the process with a
traceback before any candidate is examined.  Otherwise the session runs. -/
def mainModel (argv : List String) (targetOk : Bool) (thr : ℚ) (tgt : String)
    (raw : List (String × List (String × ℚ))) (fs0 : List (String × Nat))
    (dec : List String) (ren : List ROut) (ext : List (List String)) :
    Except String St :=
  if argv.length < 2 ∨ 3 < argv.length then
    Except.error "Usage: python script.py <target_dir> [similarity]"
  else if targetOk = false then
    Except.error "uncaught FileNotFoundError or NotADirectoryError from target_dir.iterdir()"
  else
    Except.ok (runSession thr tgt raw fs0 dec ren ext)

/-- The canonical pairs of the presented candidates, in presentation
order, extracted from an event log. -/
def presentsOf (evs : List Ev) : List (String × String) :=
  evs.filterMap (fun e =>
    match e with
    | .present a b => some (canonPair a b)
    | _ => none)

/-- The pairs for which a decision prompt was shown, one element per
`input()` call, extracted from an event log. -/
def promptedOf (evs : List Ev) : List (String × String) :=
  evs.filterMap (fun e =>
    match e with
    | .prompted a b => some (a, b)
    | _ => none)

/-- The performed archive moves (source, destination), extracted from an
event log. -/
def archivedOf (evs : List Ev) : List (String × String) :=
  evs.filterMap (fun e =>
    match e with
    | .archived s d => some (s, d)
    | _ => none)

/-- The candidate scan of lines 159-170 restricted to its pure part -
threshold filter then canonical-pair deduplication - over one entry's
match list: the emitted `(pair, score)` edges, given the pairs already
seen.  This is the CandidateNormalizer of the specification, i.e. the
loop body with every file present so that the existence checks pass. -/
def normEntryOut (thr : ℚ) (a : String) :
    List (String × ℚ) → List (String × String) → List ((String × String) × ℚ)
  | [], _ => []
  | (b, s) :: ms, seen =>
      if s < thr then normEntryOut thr a ms seen
      else if canonPair a b ∈ seen then normEntryOut thr a ms seen
      else (canonPair a b, s) :: normEntryOut thr a ms (canonPair a b :: seen)

/-- The seen set after scanning one entry's match list (same traversal as
`normEntryOut`). -/
def normEntrySeen (thr : ℚ) (a : String) :
    List (String × ℚ) → List (String × String) → List (String × String)
  | [], seen => seen
  | (b, s) :: ms, seen =>
      if s < thr then normEntrySeen thr a ms seen
      else if canonPair a b ∈ seen then normEntrySeen thr a ms seen
      else normEntrySeen thr a ms (canonPair a b :: seen)

/-- The candidate scan over the whole raw map, entries in stable
insertion order, threading the seen set from entry to entry. -/
def normMapOut (thr : ℚ) :
    List (String × List (String × ℚ)) → List (String × String) → List ((String × String) × ℚ)
  | [], _ => []
  | (a, ms) :: es, seen =>
      normEntryOut thr a ms seen ++ normMapOut thr es (normEntrySeen thr a ms seen)

/-- Normalization of a raw similarity map: the deduplicated,
threshold-filtered candidate edge sequence in scan order. -/
def normalize (raw : List (String × List (String × ℚ))) (thr : ℚ) :
    List ((String × String) × ℚ) :=
  normMapOut thr raw []

/-- The scores of every raw observation of canonical pair `p` inside one
entry, in list order. -/
def entryScores (a : String) (ms : List (String × ℚ)) (p : String × String) : List ℚ :=
  ms.filterMap (fun m => if canonPair a m.1 = p then some m.2 else none)

/-- The scores of every raw observation of canonical pair `p` in the whole
map, in scan order (entry order, then list order). -/
def occScores (raw : List (String × List (String × ℚ))) (p : String × String) : List ℚ :=
  match raw with
  | [] => []
  | (a, ms) :: es => entryScores a ms p ++ occScores es p

/-- The edge list a single surviving score gives rise to: none if no
occurrence survives, else exactly one edge carrying that score. -/
def firstHit (p : String × String) : Option ℚ → List ((String × String) × ℚ)
  | none => []
  | some s => [(p, s)]

/-! ### Association-list lemmas -/

theorem lookupF_eraseF_self (k : String) (fs : List (String × Nat)) :
    lookupF k (eraseF k fs) = none := by
  induction fs with
  | nil => rfl
  | cons kv t ih =>
    obtain ⟨a, v⟩ := kv
    by_cases h : a = k
    · simpa [eraseF, List.filter_cons, h] using ih
    · simpa [eraseF, List.filter_cons, h, lookupF] using ih

theorem lookupF_eraseF_ne (k k' : String) (h : k' ≠ k)
    (fs : List (String × Nat)) :
    lookupF k' (eraseF k fs) = lookupF k' fs := by
  induction fs with
  | nil => rfl
  | cons kv t ih =>
    obtain ⟨a, v⟩ := kv
    by_cases ha : a = k
    · have hk : ¬ k = k' := fun hh => h hh.symm
      simpa [eraseF, List.filter_cons, ha, lookupF, hk] using ih
    · by_cases ha' : a = k'
      · simp [eraseF, List.filter_cons, ha, lookupF, ha', h]
      · simpa [eraseF, List.filter_cons, ha, lookupF, ha'] using ih

theorem lookupF_setF_self (k : String) (v : Nat) (fs : List (String × Nat)) :
    lookupF k (setF k v fs) = some v := by
  simp [setF, lookupF]

theorem lookupF_setF_ne (k k' : String) (h : k' ≠ k) (v : Nat)
    (fs : List (String × Nat)) :
    lookupF k' (setF k v fs) = lookupF k' fs := by
  simp [setF, lookupF, Ne.symm h, lookupF_eraseF_ne k k' h fs]

/-! ### Event-extraction lemmas -/

theorem presentsOf_append (l l' : List Ev) :
    presentsOf (l ++ l') = presentsOf l ++ presentsOf l' := by
  simp [presentsOf]

theorem promptedOf_append (l l' : List Ev) :
    promptedOf (l ++ l') = promptedOf l ++ promptedOf l' := by
  simp [promptedOf]

theorem archivedOf_append (l l' : List Ev) :
    archivedOf (l ++ l') = archivedOf l ++ archivedOf l' := by
  simp [archivedOf]

/-! ### Structural lemmas about `move_to_archive` and the decision loop -/

theorem move_to_archive_seen (p aD : String) (st : St) :
    (move_to_archive p aD st).seen = st.seen := by
  unfold move_to_archive
  by_cases h : existsF aD st.fs
  · simp [h]
  · cases hl : lookupF p st.fs <;> simp [h, hl]

theorem move_to_archive_quit (p aD : String) (st : St) :
    (move_to_archive p aD st).quit = st.quit := by
  unfold move_to_archive
  by_cases h : existsF aD st.fs
  · simp [h]
  · cases hl : lookupF p st.fs <;> simp [h, hl]

theorem move_to_archive_presents (p aD : String) (st : St) :
    presentsOf (move_to_archive p aD st).evs = presentsOf st.evs := by
  unfold move_to_archive
  by_cases h : existsF aD st.fs
  · simp [h]
  · cases hl : lookupF p st.fs <;>
      simp [h, hl, presentsOf_append, presentsOf]

theorem move_to_archive_prompted (p aD : String) (st : St) :
    promptedOf (move_to_archive p aD st).evs = promptedOf st.evs := by
  unfold move_to_archive
  by_cases h : existsF aD st.fs
  · simp [h]
  · cases hl : lookupF p st.fs <;>
      simp [h, hl, promptedOf_append, promptedOf]

theorem move_to_archive_evs (p aD : String) (st : St) :
    ∃ t, (move_to_archive p aD st).evs = st.evs ++ t := by
  unfold move_to_archive
  by_cases h : existsF aD st.fs
  · exact ⟨[], by simp [h]⟩
  · cases hl : lookupF p st.fs with
    | none => exact ⟨[], by simp [h, hl]⟩
    | some v =>
        exact ⟨[Ev.archived p (archivePathOf aD p)], by simp [h, hl]⟩

theorem move_to_archive_evs_ext (p aD : String) (st : St) (base : List Ev) (e : Ev)
    (h : st.evs = base ++ [e]) :
    ∃ t, (move_to_archive p aD st).evs = base ++ e :: t := by
  obtain ⟨t, ht⟩ := move_to_archive_evs p aD st
  exact ⟨t, by simp [ht, h]⟩

theorem promptLoop_parts (aD a b : String) :
    ∀ (dec : List String) (ext : List (List String)) (st : St),
      (promptLoop aD a b dec ext st).1.seen = st.seen ∧
      presentsOf (promptLoop aD a b dec ext st).1.evs = presentsOf st.evs ∧
      ∃ t, (promptLoop aD a b dec ext st).1.evs = st.evs ++ Ev.prompted a b :: t
  | [], ext, st => by
      refine ⟨rfl, ?_, ⟨[], rfl⟩⟩
      simp [promptLoop, presentsOf_append, presentsOf]
  | d :: dec, ext, st => by
      simp only [promptLoop]
      split_ifs with h1 h2 h3 h4 h5 h6 h7
      · exact ⟨rfl, by simp [presentsOf_append, presentsOf],
          ⟨[Ev.skippedMissing a b], by simp⟩⟩
      · refine ⟨by simp [move_to_archive_seen], ?_, ?_⟩
        · rw [move_to_archive_presents]
          simp [presentsOf_append, presentsOf]
        · exact move_to_archive_evs_ext b aD _ st.evs (Ev.prompted a b) rfl
      · exact ⟨rfl, by simp [presentsOf_append, presentsOf], ⟨[], rfl⟩⟩
      · refine ⟨by simp [move_to_archive_seen], ?_, ?_⟩
        · rw [move_to_archive_presents]
          simp [presentsOf_append, presentsOf]
        · exact move_to_archive_evs_ext a aD _ st.evs (Ev.prompted a b) rfl
      · exact ⟨rfl, by simp [presentsOf_append, presentsOf], ⟨[], rfl⟩⟩
      · exact ⟨rfl, by simp [presentsOf_append, presentsOf], ⟨[], rfl⟩⟩
      · exact ⟨rfl, by simp [presentsOf_append, presentsOf], ⟨[], rfl⟩⟩
      · obtain ⟨hs, hp, t, ht⟩ :=
          promptLoop_parts aD a b dec ext.tail
            { st with fs := removeAll (ext.headD []) st.fs,
                      evs := (st.evs ++ [Ev.prompted a b]) ++ [Ev.invalidChoice a b] }
        exact ⟨by simpa using hs,
          by simpa [presentsOf_append, presentsOf] using hp,
          ⟨Ev.invalidChoice a b :: Ev.prompted a b :: t, by simpa using ht⟩⟩


/-! ### Branch equations for one candidate observation -/

theorem procObs_halt (thr : ℚ) (aD img1 : String) (m : String × ℚ) (st : St)
    (dec : List String) (ren : List ROut) (ext : List (List String))
    (h : st.crashed = true ∨ st.quit = true) :
    procObs thr aD img1 m st dec ren ext = (st, dec, ren, ext) := by
  unfold procObs
  rcases h with h | h <;> simp [h]

theorem procObs_below (thr : ℚ) (aD img1 : String) (m : String × ℚ) (st : St)
    (dec : List String) (ren : List ROut) (ext : List (List String))
    (hc : st.crashed = false) (hq : st.quit = false)
    (hlt : m.2 < thr) :
    procObs thr aD img1 m st dec ren ext =
      ({ st with fs := removeAll (ext.headD []) st.fs }, dec, ren, ext.tail) := by
  unfold procObs
  simp [hc, hq, hlt]

theorem procObs_gone2 (thr : ℚ) (aD img1 : String) (m : String × ℚ) (st : St)
    (dec : List String) (ren : List ROut) (ext : List (List String))
    (hc : st.crashed = false) (hq : st.quit = false)
    (hlt : ¬ m.2 < thr)
    (h2 : existsF m.1 (removeAll (ext.headD []) st.fs) = false) :
    procObs thr aD img1 m st dec ren ext =
      ({ st with fs := removeAll (ext.headD []) st.fs }, dec, ren, ext.tail) := by
  simp only [List.headD_eq_head?_getD] at h2
  unfold procObs
  simp [hc, hq, hlt, h2]

theorem procObs_seen (thr : ℚ) (aD img1 : String) (m : String × ℚ) (st : St)
    (dec : List String) (ren : List ROut) (ext : List (List String))
    (hc : st.crashed = false) (hq : st.quit = false)
    (hlt : ¬ m.2 < thr)
    (h2 : existsF m.1 (removeAll (ext.headD []) st.fs) = true)
    (hp : canonPair img1 m.1 ∈ st.seen) :
    procObs thr aD img1 m st dec ren ext =
      ({ st with fs := removeAll (ext.headD []) st.fs }, dec, ren, ext.tail) := by
  simp only [List.headD_eq_head?_getD] at h2
  unfold procObs
  simp [hc, hq, hlt, h2, hp]

theorem procObs_gone1 (thr : ℚ) (aD img1 : String) (m : String × ℚ) (st : St)
    (dec : List String) (ren : List ROut) (ext : List (List String))
    (hc : st.crashed = false) (hq : st.quit = false)
    (hlt : ¬ m.2 < thr)
    (h2 : existsF m.1 (removeAll (ext.headD []) st.fs) = true)
    (hp : canonPair img1 m.1 ∉ st.seen)
    (h1 : existsF img1 (removeAll (ext.headD []) st.fs) = false) :
    procObs thr aD img1 m st dec ren ext =
      ({ st with
          fs := removeAll (ext.headD []) st.fs,
          seen := canonPair img1 m.1 :: st.seen,
          evs := (st.evs ++ [Ev.header img1 m.1 m.2]) ++ [Ev.skippedMissing img1 m.1] },
        dec, ren, ext.tail) := by
  simp only [List.headD_eq_head?_getD] at h2 h1
  unfold procObs
  simp [hc, hq, hlt, h2, hp, h1]

theorem procObs_render_ok (thr : ℚ) (aD img1 : String) (m : String × ℚ) (st : St)
    (dec : List String) (ren : List ROut) (ext : List (List String))
    (hc : st.crashed = false) (hq : st.quit = false)
    (hlt : ¬ m.2 < thr)
    (h2 : existsF m.1 (removeAll (ext.headD []) st.fs) = true)
    (hp : canonPair img1 m.1 ∉ st.seen)
    (h1 : existsF img1 (removeAll (ext.headD []) st.fs) = true)
    (hr : ren.headD ROut.ok = ROut.ok) :
    procObs thr aD img1 m st dec ren ext =
      ((promptLoop aD img1 m.1 dec ext.tail
          { st with
            fs := removeAll (ext.headD []) st.fs,
            seen := canonPair img1 m.1 :: st.seen,
            evs := (st.evs ++ [Ev.header img1 m.1 m.2]) ++ [Ev.present img1 m.1] }).1,
        (promptLoop aD img1 m.1 dec ext.tail
          { st with
            fs := removeAll (ext.headD []) st.fs,
            seen := canonPair img1 m.1 :: st.seen,
            evs := (st.evs ++ [Ev.header img1 m.1 m.2]) ++ [Ev.present img1 m.1] }).2.1,
        ren.tail,
        (promptLoop aD img1 m.1 dec ext.tail
          { st with
            fs := removeAll (ext.headD []) st.fs,
            seen := canonPair img1 m.1 :: st.seen,
            evs := (st.evs ++ [Ev.header img1 m.1 m.2]) ++ [Ev.present img1 m.1] }).2.2) := by
  simp only [List.headD_eq_head?_getD] at h2 h1 hr
  unfold procObs
  simp [hc, hq, hlt, h2, hp, h1, hr]

theorem procObs_render_cpe (thr : ℚ) (aD img1 : String) (m : String × ℚ) (st : St)
    (dec : List String) (ren : List ROut) (ext : List (List String))
    (hc : st.crashed = false) (hq : st.quit = false)
    (hlt : ¬ m.2 < thr)
    (h2 : existsF m.1 (removeAll (ext.headD []) st.fs) = true)
    (hp : canonPair img1 m.1 ∉ st.seen)
    (h1 : existsF img1 (removeAll (ext.headD []) st.fs) = true)
    (hr : ren.headD ROut.ok = ROut.cpe) :
    procObs thr aD img1 m st dec ren ext =
      ((promptLoop aD img1 m.1 dec ext.tail
          { st with
            fs := removeAll (ext.headD []) st.fs,
            seen := canonPair img1 m.1 :: st.seen,
            evs := ((st.evs ++ [Ev.header img1 m.1 m.2]) ++ [Ev.present img1 m.1]) ++
              [Ev.renderFail img1 m.1 true] }).1,
        (promptLoop aD img1 m.1 dec ext.tail
          { st with
            fs := removeAll (ext.headD []) st.fs,
            seen := canonPair img1 m.1 :: st.seen,
            evs := ((st.evs ++ [Ev.header img1 m.1 m.2]) ++ [Ev.present img1 m.1]) ++
              [Ev.renderFail img1 m.1 true] }).2.1,
        ren.tail,
        (promptLoop aD img1 m.1 dec ext.tail
          { st with
            fs := removeAll (ext.headD []) st.fs,
            seen := canonPair img1 m.1 :: st.seen,
            evs := ((st.evs ++ [Ev.header img1 m.1 m.2]) ++ [Ev.present img1 m.1]) ++
              [Ev.renderFail img1 m.1 true] }).2.2) := by
  simp only [List.headD_eq_head?_getD] at h2 h1 hr
  unfold procObs
  simp [hc, hq, hlt, h2, hp, h1, hr]

theorem procObs_render_other (thr : ℚ) (aD img1 : String) (m : String × ℚ) (st : St)
    (dec : List String) (ren : List ROut) (ext : List (List String))
    (hc : st.crashed = false) (hq : st.quit = false)
    (hlt : ¬ m.2 < thr)
    (h2 : existsF m.1 (removeAll (ext.headD []) st.fs) = true)
    (hp : canonPair img1 m.1 ∉ st.seen)
    (h1 : existsF img1 (removeAll (ext.headD []) st.fs) = true)
    (hr : ren.headD ROut.ok = ROut.otherErr) :
    procObs thr aD img1 m st dec ren ext =
      ({ st with
          fs := removeAll (ext.headD []) st.fs,
          seen := canonPair img1 m.1 :: st.seen,
          evs := ((st.evs ++ [Ev.header img1 m.1 m.2]) ++ [Ev.present img1 m.1]) ++
            [Ev.renderFail img1 m.1 false] },
        dec, ren.tail, ext.tail) := by
  simp only [List.headD_eq_head?_getD] at h2 h1 hr
  unfold procObs
  simp [hc, hq, hlt, h2, hp, h1, hr]


/-! ### The session presentation invariant -/

/-- Invariant maintained by every step of the session: the presented
canonical pairs are pairwise distinct, and each of them is recorded in
the `compared_pairs` seen set. -/
def SessionInv (st : St) : Prop :=
  (presentsOf st.evs).Nodup ∧ ∀ q ∈ presentsOf st.evs, q ∈ st.seen

theorem inv_extend (st st3 : St) (pair : String × String)
    (hinv : SessionInv st) (hp : pair ∉ st.seen)
    (hseen : st3.seen = pair :: st.seen)
    (hpres : presentsOf st3.evs = presentsOf st.evs ++ [pair]) :
    SessionInv st3 := by
  obtain ⟨hnd, hsub⟩ := hinv
  have hnotin : pair ∉ presentsOf st.evs := fun hmem => hp (hsub _ hmem)
  constructor
  · rw [hpres]
    simp [List.nodup_append, hnd, hnotin]
  · intro q hq
    rw [hpres] at hq
    rw [hseen]
    rcases List.mem_append.1 hq with h | h
    · exact List.mem_cons_of_mem _ (hsub q h)
    · simp only [List.mem_singleton] at h
      exact h ▸ List.mem_cons_self _ _

theorem inv_promptLoop (aD a b : String) (dec : List String)
    (ext : List (List String)) (st3 : St) (h : SessionInv st3) :
    SessionInv (promptLoop aD a b dec ext st3).1 := by
  obtain ⟨hs, hpr, -⟩ := promptLoop_parts aD a b dec ext st3
  exact ⟨by rw [hpr]; exact h.1,
    fun q hq => by rw [hs]; exact h.2 q (by rwa [hpr] at hq)⟩

theorem procObs_inv (thr : ℚ) (aD img1 : String) (m : String × ℚ) (st : St)
    (dec : List String) (ren : List ROut) (ext : List (List String))
    (hinv : SessionInv st) :
    SessionInv (procObs thr aD img1 m st dec ren ext).1 := by
  by_cases hc : st.crashed = true
  · rw [procObs_halt thr aD img1 m st dec ren ext (Or.inl hc)]; exact hinv
  by_cases hq : st.quit = true
  · rw [procObs_halt thr aD img1 m st dec ren ext (Or.inr hq)]; exact hinv
  rw [Bool.not_eq_true] at hc hq
  by_cases hlt : m.2 < thr
  · rw [procObs_below thr aD img1 m st dec ren ext hc hq hlt]; exact hinv
  by_cases h2 : existsF m.1 (removeAll (ext.headD []) st.fs) = true
  swap
  · rw [Bool.not_eq_true] at h2
    rw [procObs_gone2 thr aD img1 m st dec ren ext hc hq hlt h2]; exact hinv
  by_cases hp : canonPair img1 m.1 ∈ st.seen
  · rw [procObs_seen thr aD img1 m st dec ren ext hc hq hlt h2 hp]; exact hinv
  by_cases h1 : existsF img1 (removeAll (ext.headD []) st.fs) = true
  swap
  · rw [Bool.not_eq_true] at h1
    rw [procObs_gone1 thr aD img1 m st dec ren ext hc hq hlt h2 hp h1]
    obtain ⟨hnd, hsub⟩ := hinv
    refine ⟨?_, ?_⟩
    · simpa [presentsOf_append, presentsOf] using hnd
    · intro q hqmem
      have : q ∈ presentsOf st.evs := by
        simpa [presentsOf_append, presentsOf] using hqmem
      exact List.mem_cons_of_mem _ (hsub q this)
  cases hr : ren.headD ROut.ok with
  | ok =>
      rw [procObs_render_ok thr aD img1 m st dec ren ext hc hq hlt h2 hp h1 hr]
      refine inv_promptLoop _ _ _ _ _ _ (inv_extend st _ (canonPair img1 m.1) hinv hp rfl ?_)
      simp [presentsOf_append, presentsOf]
  | cpe =>
      rw [procObs_render_cpe thr aD img1 m st dec ren ext hc hq hlt h2 hp h1 hr]
      refine inv_promptLoop _ _ _ _ _ _ (inv_extend st _ (canonPair img1 m.1) hinv hp rfl ?_)
      simp [presentsOf_append, presentsOf]
  | otherErr =>
      rw [procObs_render_other thr aD img1 m st dec ren ext hc hq hlt h2 hp h1 hr]
      refine inv_extend st _ (canonPair img1 m.1) hinv hp rfl ?_
      simp [presentsOf_append, presentsOf]

theorem runMatches_inv (thr : ℚ) (aD img1 : String) :
    ∀ (ms : List (String × ℚ)) (st : St) (dec : List String) (ren : List ROut)
      (ext : List (List String)),
      SessionInv st → SessionInv (runMatches thr aD img1 ms st dec ren ext).1
  | [], _, _, _, _, h => h
  | m :: ms, st, dec, ren, ext, h => by
      simp only [runMatches]
      exact runMatches_inv thr aD img1 ms _ _ _ _
        (procObs_inv thr aD img1 m st dec ren ext h)

theorem runEntries_inv (thr : ℚ) (aD : String) :
    ∀ (es : List (String × List (String × ℚ))) (st : St) (dec : List String)
      (ren : List ROut) (ext : List (List String)),
      SessionInv st → SessionInv (runEntries thr aD es st dec ren ext).1
  | [], _, _, _, _, h => h
  | (img1, ms) :: es, st, dec, ren, ext, h => by
      simp only [runEntries]
      split_ifs with h1 h2
      · exact h
      · exact runEntries_inv thr aD es st dec ren ext h
      · exact runEntries_inv thr aD es _ _ _ _
          (runMatches_inv thr aD img1 ms st dec ren ext h)


/-! ### The candidate scan: first surviving occurrence wins -/

/-- The occurrence scores that survive the threshold filter. -/
def survivors (thr : ℚ) (l : List ℚ) : List ℚ :=
  l.filter (fun s => decide (¬ s < thr))

theorem survivors_append (thr : ℚ) (l l' : List ℚ) :
    survivors thr (l ++ l') = survivors thr l ++ survivors thr l' := by
  simp [survivors]

theorem normEntrySeen_spec (thr : ℚ) (a : String) (p : String × String) :
    ∀ (ms : List (String × ℚ)) (seen : List (String × String)),
      (p ∈ normEntrySeen thr a ms seen ↔
        p ∈ seen ∨ survivors thr (entryScores a ms p) ≠ [])
  | [], seen => by simp [normEntrySeen, entryScores, survivors]
  | (b, s) :: ms, seen => by
      have ih := normEntrySeen_spec thr a p ms seen
      by_cases hlt : s < thr
      · by_cases hcp : canonPair a b = p
        · simpa [normEntrySeen, entryScores, List.filterMap_cons, survivors,
            List.filter_cons, hlt, hcp] using ih
        · simpa [normEntrySeen, entryScores, List.filterMap_cons, hlt, hcp] using ih
      · by_cases hsn : canonPair a b ∈ seen
        · by_cases hcp : canonPair a b = p
          · have hps : p ∈ seen := hcp ▸ hsn
            rw [show normEntrySeen thr a ((b, s) :: ms) seen =
                normEntrySeen thr a ms seen from by simp [normEntrySeen, hlt, hsn]]
            rw [ih]
            simp [hps]
          · simpa [normEntrySeen, entryScores, List.filterMap_cons, hlt, hsn,
              hcp] using ih
        · have ih' := normEntrySeen_spec thr a p ms (canonPair a b :: seen)
          by_cases hcp : canonPair a b = p
          · subst hcp
            have hge : thr ≤ s := not_lt.1 hlt
            rw [show normEntrySeen thr a ((b, s) :: ms) seen =
                normEntrySeen thr a ms (canonPair a b :: seen) from by
                simp [normEntrySeen, hlt, hsn]]
            rw [ih']
            simp [entryScores, List.filterMap_cons, survivors, List.filter_cons, hge]
          · rw [show normEntrySeen thr a ((b, s) :: ms) seen =
                normEntrySeen thr a ms (canonPair a b :: seen) from by
                simp [normEntrySeen, hlt, hsn]]
            rw [ih']
            have hpc : p ≠ canonPair a b := fun h => hcp h.symm
            simp [entryScores, List.filterMap_cons, hcp, List.mem_cons, hpc]

theorem normEntryOut_spec (thr : ℚ) (a : String) (p : String × String) :
    ∀ (ms : List (String × ℚ)) (seen : List (String × String)),
      ((normEntryOut thr a ms seen).filter (fun e => decide (e.1 = p)) =
        if p ∈ seen then []
        else firstHit p ((survivors thr (entryScores a ms p)).head?))
  | [], seen => by simp [normEntryOut, entryScores, survivors, firstHit]
  | (b, s) :: ms, seen => by
      have ih := normEntryOut_spec thr a p ms seen
      by_cases hlt : s < thr
      · by_cases hcp : canonPair a b = p
        · simpa [normEntryOut, entryScores, List.filterMap_cons, survivors,
            List.filter_cons, hlt, hcp] using ih
        · simpa [normEntryOut, entryScores, List.filterMap_cons, hlt, hcp] using ih
      · by_cases hsn : canonPair a b ∈ seen
        · by_cases hcp : canonPair a b = p
          · have hps : p ∈ seen := hcp ▸ hsn
            rw [show normEntryOut thr a ((b, s) :: ms) seen =
                normEntryOut thr a ms seen from by simp [normEntryOut, hlt, hsn]]
            rw [ih]
            simp [hps]
          · simpa [normEntryOut, entryScores, List.filterMap_cons, hlt, hsn,
              hcp] using ih
        · have ih' := normEntryOut_spec thr a p ms (canonPair a b :: seen)
          by_cases hcp : canonPair a b = p
          · subst hcp
            have hnp : canonPair a b ∉ seen := hsn
            rw [show normEntryOut thr a ((b, s) :: ms) seen =
                (canonPair a b, s) :: normEntryOut thr a ms (canonPair a b :: seen) from by
                simp [normEntryOut, hlt, hsn]]
            rw [List.filter_cons]
            rw [ih']
            have hge : thr ≤ s := not_lt.1 hlt
            simp [entryScores, List.filterMap_cons, survivors, List.filter_cons,
              hge, hnp, firstHit]
          · have hpc : p ≠ canonPair a b := fun h => hcp h.symm
            rw [show normEntryOut thr a ((b, s) :: ms) seen =
                (canonPair a b, s) :: normEntryOut thr a ms (canonPair a b :: seen) from by
                simp [normEntryOut, hlt, hsn]]
            rw [List.filter_cons]
            rw [ih']
            simp [entryScores, List.filterMap_cons, hcp, List.mem_cons, hpc]

theorem normMapOut_spec (thr : ℚ) (p : String × String) :
    ∀ (es : List (String × List (String × ℚ))) (seen : List (String × String)),
      ((normMapOut thr es seen).filter (fun e => decide (e.1 = p)) =
        if p ∈ seen then []
        else firstHit p ((survivors thr (occScores es p)).head?))
  | [], seen => by simp [normMapOut, occScores, survivors, firstHit]
  | (a, ms) :: es, seen => by
      have ihmap := normMapOut_spec thr p es (normEntrySeen thr a ms seen)
      rw [show normMapOut thr ((a, ms) :: es) seen =
          normEntryOut thr a ms seen ++ normMapOut thr es (normEntrySeen thr a ms seen)
          from rfl]
      rw [List.filter_append, normEntryOut_spec thr a p ms seen, ihmap]
      rw [show occScores ((a, ms) :: es) p = entryScores a ms p ++ occScores es p from rfl]
      rw [survivors_append]
      simp only [normEntrySeen_spec thr a p ms seen]
      by_cases hps : p ∈ seen
      · simp [hps]
      · simp only [hps, if_false, false_or]
        cases hE : survivors thr (entryScores a ms p) with
        | nil => simp [hE, firstHit]
        | cons s rest => simp [hE, firstHit]


/-! ### Decision-step equations -/

theorem move_to_archive_eq (p aD : String) (st : St) (v : Nat)
    (hAD : lookupF aD st.fs = none) (hp : lookupF p st.fs = some v) :
    move_to_archive p aD st =
      { st with fs := setF (archivePathOf aD p) v (eraseF p st.fs),
                evs := st.evs ++ [Ev.archived p (archivePathOf aD p)] } := by
  unfold move_to_archive
  simp [existsF, hAD, hp]

theorem move_to_archive_blocked (p aD : String) (st : St) (w : Nat)
    (hAD : lookupF aD st.fs = some w) :
    move_to_archive p aD st = { st with crashed := true } := by
  unfold move_to_archive
  simp [existsF, hAD]

theorem promptLoop_missing (aD a b d : String) (dec : List String) (st : St)
    (hmiss : existsF a st.fs = false ∨ existsF b st.fs = false) :
    promptLoop aD a b (d :: dec) [] st =
      ({ st with evs := (st.evs ++ [Ev.prompted a b]) ++ [Ev.skippedMissing a b] },
        dec, []) := by
  simp only [promptLoop]
  rcases hmiss with h | h <;> simp [removeAll, h]

theorem promptLoop_keep1 (aD a b : String) (dec : List String) (st : St)
    (ha : existsF a st.fs = true) (hb : existsF b st.fs = true) :
    promptLoop aD a b ("1" :: dec) [] st =
      (move_to_archive b aD { st with evs := st.evs ++ [Ev.prompted a b] },
        dec, []) := by
  have h1 : lowerStr "1" = "1" := by decide
  simp only [promptLoop]
  simp [removeAll, ha, hb, h1]

theorem promptLoop_keep2 (aD a b : String) (dec : List String) (st : St)
    (ha : existsF a st.fs = true) (hb : existsF b st.fs = true) :
    promptLoop aD a b ("2" :: dec) [] st =
      (move_to_archive a aD { st with evs := st.evs ++ [Ev.prompted a b] },
        dec, []) := by
  have h2 : lowerStr "2" = "2" := by decide
  have hne : ("2" : String) ≠ "1" := by decide
  simp only [promptLoop]
  simp [removeAll, ha, hb, h2, hne]

theorem promptLoop_quit_eq (aD a b : String) (dec : List String) (st : St)
    (ha : existsF a st.fs = true) (hb : existsF b st.fs = true) :
    promptLoop aD a b ("q" :: dec) [] st =
      ({ st with evs := st.evs ++ [Ev.prompted a b], quit := true }, dec, []) := by
  have hqs : lowerStr "q" = "q" := by decide
  have hne1 : ("q" : String) ≠ "1" := by decide
  have hne2 : ("q" : String) ≠ "2" := by decide
  have hnes : ("q" : String) ≠ "s" := by decide
  simp only [promptLoop]
  simp [removeAll, ha, hb, hqs, hne1, hne2, hnes]

theorem promptLoop_skip_eq (aD a b : String) (dec : List String) (st : St)
    (ha : existsF a st.fs = true) (hb : existsF b st.fs = true) :
    promptLoop aD a b ("s" :: dec) [] st =
      ({ st with evs := st.evs ++ [Ev.prompted a b] }, dec, []) := by
  have hss : lowerStr "s" = "s" := by decide
  have hne1 : ("s" : String) ≠ "1" := by decide
  have hne2 : ("s" : String) ≠ "2" := by decide
  simp only [promptLoop]
  simp [removeAll, ha, hb, hss, hne1, hne2]

theorem runMatches_halt (thr : ℚ) (aD img1 : String) :
    ∀ (ms : List (String × ℚ)) (st : St) (dec : List String) (ren : List ROut)
      (ext : List (List String)), (st.crashed = true ∨ st.quit = true) →
      runMatches thr aD img1 ms st dec ren ext = (st, dec, ren, ext)
  | [], _, _, _, _, _ => rfl
  | m :: ms, st, dec, ren, ext, h => by
      simp only [runMatches]
      rw [procObs_halt thr aD img1 m st dec ren ext h]
      exact runMatches_halt thr aD img1 ms st dec ren ext h

theorem runEntries_halt (thr : ℚ) (aD : String) :
    ∀ (es : List (String × List (String × ℚ))) (st : St) (dec : List String)
      (ren : List ROut) (ext : List (List String)),
      (st.crashed = true ∨ st.quit = true) →
      runEntries thr aD es st dec ren ext = (st, dec, ren, ext)
  | [], _, _, _, _, _ => rfl
  | (img1, ms) :: es, st, dec, ren, ext, h => by
      have hb : (st.crashed || st.quit) = true := by
        rcases h with h | h <;> simp [h]
      simp [runEntries, hb]


/-! ### Claims C1, C2, C3 -/

/-- C1, counterexample to the claim as stated: in the raw map
`[a : [(b, 0)], b : [(a, 2)]]` with threshold `1`, the unordered pair
`{a, b}` occurs twice, first with score `0` and then with score `2`.
The claim says the emitted edge carries the score of the occurrence
encountered first in scan order (here `0`); the code filters by threshold
before deduplicating, so the below-threshold first occurrence is
discarded without marking the pair, and the single emitted edge carries
the score `2` of the later occurrence. -/
theorem C1_counterexample :
    occScores [("a", [("b", 0)]), ("b", [("a", 2)])] (canonPair "a" "b") = [0, 2] ∧
    (normalize [("a", [("b", 0)]), ("b", [("a", 2)])] 1).filter
        (fun e => decide (e.1 = canonPair "a" "b")) = [(canonPair "a" "b", 2)] ∧
    (normalize [("a", [("b", 0)]), ("b", [("a", 2)])] 1).filter
        (fun e => decide (e.1 = canonPair "a" "b")) ≠ [(canonPair "a" "b", 0)] :=
  ⟨by decide, by decide, by decide⟩

/-- C1 (amended): scanning raw-map entries in stable insertion order and
each candidate list in list order, the normalization emits, for every
canonical pair `p`, exactly the edges `firstHit p s`: no edge at all when
no occurrence of `p` has score at or above the threshold, and exactly one
edge otherwise, carrying the score of the first occurrence in scan order
that is at or above the threshold; all later occurrences are discarded
regardless of their score.  (The original claim's "score of the first
occurrence in scan order" holds only when that first occurrence itself
meets the threshold.) -/
theorem C1_first_surviving_occurrence_wins
    (raw : List (String × List (String × ℚ))) (thr : ℚ) (p : String × String) :
    (normalize raw thr).filter (fun e => decide (e.1 = p)) =
      firstHit p ((survivors thr (occScores raw p)).head?) := by
  have h := normMapOut_spec thr p raw []
  simpa [normalize] using h

/-- C2: in every session, whatever the scripts of decisions, rendering
outcomes and external removals, the canonical pairs presented to the user
are pairwise distinct, and every presented pair (including pairs whose
decision was Skip) is in the final `compared_pairs` seen set, since the
pair is added at the moment it is selected, before the decision is read. -/
theorem C2_no_duplicate_presentation (thr : ℚ) (tgt : String)
    (raw : List (String × List (String × ℚ))) (fs0 : List (String × Nat))
    (dec : List String) (ren : List ROut) (ext : List (List String)) :
    (presentsOf (runSession thr tgt raw fs0 dec ren ext).evs).Nodup ∧
    ∀ q ∈ presentsOf (runSession thr tgt raw fs0 dec ren ext).evs,
      q ∈ (runSession thr tgt raw fs0 dec ren ext).seen := by
  have h0 : SessionInv (initSt fs0) := ⟨List.nodup_nil, by simp [initSt, presentsOf]⟩
  exact runEntries_inv thr (archiveDirOf tgt) raw (initSt fs0) dec ren ext h0

/-- C3: when KeepFirst is chosen on the presented pair `(a, b)` and both
files exist at decision time (no external interference, no file blocking
the archive-directory path, and the three paths involved pairwise
distinct), afterwards `b` is gone from its original path and recorded at
`<target>/duplicates_archive/<basename b>` - a flat subdirectory of the
target directory - while `a` is untouched; KeepSecond symmetrically
archives `a`. -/
theorem C3_keepfirst_archives_loser (tgt a b : String) (va vb : Nat) (st : St)
    (dec : List String)
    (hc : st.crashed = false)
    (ha : lookupF a st.fs = some va) (hb : lookupF b st.fs = some vb)
    (hAD : lookupF (archiveDirOf tgt) st.fs = none)
    (hab : a ≠ b)
    (hpb_b : archivePathOf (archiveDirOf tgt) b ≠ b)
    (hpb_a : archivePathOf (archiveDirOf tgt) b ≠ a)
    (hpa_a : archivePathOf (archiveDirOf tgt) a ≠ a)
    (hpa_b : archivePathOf (archiveDirOf tgt) a ≠ b) :
    (archivePathOf (archiveDirOf tgt) b = tgt ++ "/duplicates_archive" ++ "/" ++ basename b ∧
     lookupF b (promptLoop (archiveDirOf tgt) a b ("1" :: dec) [] st).1.fs = none ∧
     lookupF (archivePathOf (archiveDirOf tgt) b)
        (promptLoop (archiveDirOf tgt) a b ("1" :: dec) [] st).1.fs = some vb ∧
     lookupF a (promptLoop (archiveDirOf tgt) a b ("1" :: dec) [] st).1.fs = some va ∧
     (promptLoop (archiveDirOf tgt) a b ("1" :: dec) [] st).1.crashed = false) ∧
    (lookupF a (promptLoop (archiveDirOf tgt) a b ("2" :: dec) [] st).1.fs = none ∧
     lookupF (archivePathOf (archiveDirOf tgt) a)
        (promptLoop (archiveDirOf tgt) a b ("2" :: dec) [] st).1.fs = some va ∧
     lookupF b (promptLoop (archiveDirOf tgt) a b ("2" :: dec) [] st).1.fs = some vb ∧
     (promptLoop (archiveDirOf tgt) a b ("2" :: dec) [] st).1.crashed = false) := by
  have hea : existsF a st.fs = true := by simp [existsF, ha]
  have heb : existsF b st.fs = true := by simp [existsF, hb]
  constructor
  · rw [promptLoop_keep1 (archiveDirOf tgt) a b dec st hea heb]
    rw [move_to_archive_eq b (archiveDirOf tgt)
        { st with evs := st.evs ++ [Ev.prompted a b] } vb hAD hb]
    refine ⟨rfl, ?_, ?_, ?_, hc⟩
    · rw [lookupF_setF_ne _ b (Ne.symm hpb_b) vb _]
      exact lookupF_eraseF_self b st.fs
    · exact lookupF_setF_self _ vb _
    · rw [lookupF_setF_ne _ a (Ne.symm hpb_a) vb _]
      rw [lookupF_eraseF_ne b a hab st.fs]
      exact ha
  · rw [promptLoop_keep2 (archiveDirOf tgt) a b dec st hea heb]
    rw [move_to_archive_eq a (archiveDirOf tgt)
        { st with evs := st.evs ++ [Ev.prompted a b] } va hAD ha]
    refine ⟨?_, ?_, ?_, hc⟩
    · rw [lookupF_setF_ne _ a (Ne.symm hpa_a) va _]
      exact lookupF_eraseF_self a st.fs
    · exact lookupF_setF_self _ va _
    · rw [lookupF_setF_ne _ b (Ne.symm hpa_b) va _]
      rw [lookupF_eraseF_ne a b (Ne.symm hab) st.fs]
      exact hb

/-- Witness for C3 at a concrete session state. -/
theorem C3_keepfirst_archives_loser_witness :
    (archivePathOf (archiveDirOf "t") "t/b.jpg" =
        "t" ++ "/duplicates_archive" ++ "/" ++ basename "t/b.jpg" ∧
     lookupF "t/b.jpg" (promptLoop (archiveDirOf "t") "t/a.jpg" "t/b.jpg" ["1"] []
        (initSt [("t/a.jpg", 1), ("t/b.jpg", 2)])).1.fs = none ∧
     lookupF (archivePathOf (archiveDirOf "t") "t/b.jpg")
        (promptLoop (archiveDirOf "t") "t/a.jpg" "t/b.jpg" ["1"] []
          (initSt [("t/a.jpg", 1), ("t/b.jpg", 2)])).1.fs = some 2 ∧
     lookupF "t/a.jpg" (promptLoop (archiveDirOf "t") "t/a.jpg" "t/b.jpg" ["1"] []
        (initSt [("t/a.jpg", 1), ("t/b.jpg", 2)])).1.fs = some 1 ∧
     (promptLoop (archiveDirOf "t") "t/a.jpg" "t/b.jpg" ["1"] []
        (initSt [("t/a.jpg", 1), ("t/b.jpg", 2)])).1.crashed = false) ∧
    (lookupF "t/a.jpg" (promptLoop (archiveDirOf "t") "t/a.jpg" "t/b.jpg" ["2"] []
        (initSt [("t/a.jpg", 1), ("t/b.jpg", 2)])).1.fs = none ∧
     lookupF (archivePathOf (archiveDirOf "t") "t/a.jpg")
        (promptLoop (archiveDirOf "t") "t/a.jpg" "t/b.jpg" ["2"] []
          (initSt [("t/a.jpg", 1), ("t/b.jpg", 2)])).1.fs = some 1 ∧
     lookupF "t/b.jpg" (promptLoop (archiveDirOf "t") "t/a.jpg" "t/b.jpg" ["2"] []
        (initSt [("t/a.jpg", 1), ("t/b.jpg", 2)])).1.fs = some 2 ∧
     (promptLoop (archiveDirOf "t") "t/a.jpg" "t/b.jpg" ["2"] []
        (initSt [("t/a.jpg", 1), ("t/b.jpg", 2)])).1.crashed = false) :=
  C3_keepfirst_archives_loser "t" "t/a.jpg" "t/b.jpg" 1 2
    (initSt [("t/a.jpg", 1), ("t/b.jpg", 2)]) [] rfl (by decide) (by decide)
    (by decide) (by decide) (by decide) (by decide) (by decide) (by decide)


/-! ### Claims C4, C5 -/

/-- C4: if, by the moment a queued candidate observation is dequeued, an
external removal has taken away either of its two files, then processing
that observation neither crashes nor quits, presents nothing, shows no
prompt, consumes no decision and no rendering, and leaves the filesystem
exactly as the removal left it - the session silently advances to the
next eligible pair.  Both endpoints are checked against the filesystem as
it stands at dequeue time, not as it stood when the map was built. -/
theorem C4_vanishing_file_safety (thr : ℚ) (aD img1 : String) (m : String × ℚ)
    (st : St) (dec : List String) (ren : List ROut) (ext : List (List String))
    (hc : st.crashed = false) (hq : st.quit = false)
    (hmiss : existsF img1 (removeAll (ext.headD []) st.fs) = false ∨
             existsF m.1 (removeAll (ext.headD []) st.fs) = false) :
    (procObs thr aD img1 m st dec ren ext).1.crashed = false ∧
    (procObs thr aD img1 m st dec ren ext).1.quit = false ∧
    presentsOf (procObs thr aD img1 m st dec ren ext).1.evs = presentsOf st.evs ∧
    promptedOf (procObs thr aD img1 m st dec ren ext).1.evs = promptedOf st.evs ∧
    (procObs thr aD img1 m st dec ren ext).1.fs = removeAll (ext.headD []) st.fs ∧
    (procObs thr aD img1 m st dec ren ext).2.1 = dec ∧
    (procObs thr aD img1 m st dec ren ext).2.2.1 = ren := by
  by_cases hlt : m.2 < thr
  · rw [procObs_below thr aD img1 m st dec ren ext hc hq hlt]
    exact ⟨hc, hq, rfl, rfl, rfl, rfl, rfl⟩
  by_cases h2 : existsF m.1 (removeAll (ext.headD []) st.fs) = true
  swap
  · rw [Bool.not_eq_true] at h2
    rw [procObs_gone2 thr aD img1 m st dec ren ext hc hq hlt h2]
    exact ⟨hc, hq, rfl, rfl, rfl, rfl, rfl⟩
  have h1 : existsF img1 (removeAll (ext.headD []) st.fs) = false := by
    rcases hmiss with h | h
    · exact h
    · rw [h2] at h; exact absurd h (by simp)
  by_cases hp : canonPair img1 m.1 ∈ st.seen
  · rw [procObs_seen thr aD img1 m st dec ren ext hc hq hlt h2 hp]
    exact ⟨hc, hq, rfl, rfl, rfl, rfl, rfl⟩
  · rw [procObs_gone1 thr aD img1 m st dec ren ext hc hq hlt h2 hp h1]
    refine ⟨hc, hq, ?_, ?_, rfl, rfl, rfl⟩
    · simp [presentsOf_append, presentsOf]
    · simp [promptedOf_append, promptedOf]

/-- Witness for C4: the source image `t/a` is already gone when its
observation against the existing `t/b` is dequeued. -/
theorem C4_vanishing_file_safety_witness :
    (procObs 1 "t/duplicates_archive" "t/a" ("t/b", 2)
        (initSt [("t/b", 2)]) [] [] []).1.crashed = false ∧
    (procObs 1 "t/duplicates_archive" "t/a" ("t/b", 2)
        (initSt [("t/b", 2)]) [] [] []).1.quit = false ∧
    presentsOf (procObs 1 "t/duplicates_archive" "t/a" ("t/b", 2)
        (initSt [("t/b", 2)]) [] [] []).1.evs = presentsOf (initSt [("t/b", 2)]).evs ∧
    promptedOf (procObs 1 "t/duplicates_archive" "t/a" ("t/b", 2)
        (initSt [("t/b", 2)]) [] [] []).1.evs = promptedOf (initSt [("t/b", 2)]).evs ∧
    (procObs 1 "t/duplicates_archive" "t/a" ("t/b", 2)
        (initSt [("t/b", 2)]) [] [] []).1.fs =
      removeAll (([] : List (List String)).headD []) (initSt [("t/b", 2)]).fs ∧
    (procObs 1 "t/duplicates_archive" "t/a" ("t/b", 2)
        (initSt [("t/b", 2)]) [] [] []).2.1 = [] ∧
    (procObs 1 "t/duplicates_archive" "t/a" ("t/b", 2)
        (initSt [("t/b", 2)]) [] [] []).2.2.1 = [] :=
  C4_vanishing_file_safety 1 "t/duplicates_archive" "t/a" ("t/b", 2)
    (initSt [("t/b", 2)]) [] [] [] rfl rfl (Or.inl (by decide))

/-- C5, counterexample to the claim as stated: the pair `(t/a, t/b)` is
presented while both files exist; while the session waits at the prompt,
`t/a` (the file the user wants to keep) is removed externally; the user
then chooses KeepFirst.  The second file `t/b` still exists at decision
time, yet it is not archived: the re-check of line 199 covers both files
and abandons the pair when either is missing. -/
theorem C5_counterexample :
    presentsOf (runSession 1 "t" [("t/a", [("t/b", 2)])] [("t/a", 1), ("t/b", 2)]
        ["1"] [] [[], ["t/a"]]).evs = [("t/a", "t/b")] ∧
    lookupF "t/b" (runSession 1 "t" [("t/a", [("t/b", 2)])] [("t/a", 1), ("t/b", 2)]
        ["1"] [] [[], ["t/a"]]).fs = some 2 ∧
    archivedOf (runSession 1 "t" [("t/a", [("t/b", 2)])] [("t/a", 1), ("t/b", 2)]
        ["1"] [] [[], ["t/a"]]).evs = [] ∧
    (runSession 1 "t" [("t/a", [("t/b", 2)])] [("t/a", 1), ("t/b", 2)]
        ["1"] [] [[], ["t/a"]]).crashed = false :=
  ⟨by decide, by decide, by decide, by decide⟩

/-- C5 (amended): at decision time the existence of BOTH files is
re-verified.  If either is absent - for KeepFirst as for KeepSecond - the
session reports ("no longer exist, skipping"), performs no archive action
and proceeds without error; only when both are present does KeepFirst
archive the second file (reported as an archive action).  Archiving is
thus never attempted on a no-longer-existing file. -/
theorem C5_already_absent_handling (aD a b : String) (vb : Nat) (st : St)
    (dec : List String) (hc : st.crashed = false) (hq : st.quit = false) :
    (existsF a st.fs = false ∨ existsF b st.fs = false →
      ((promptLoop aD a b ("1" :: dec) [] st).1.fs = st.fs ∧
       archivedOf (promptLoop aD a b ("1" :: dec) [] st).1.evs = archivedOf st.evs ∧
       (promptLoop aD a b ("1" :: dec) [] st).1.crashed = false ∧
       (promptLoop aD a b ("1" :: dec) [] st).1.quit = false ∧
       (promptLoop aD a b ("1" :: dec) [] st).2.1 = dec ∧
       (promptLoop aD a b ("1" :: dec) [] st).1.evs =
         (st.evs ++ [Ev.prompted a b]) ++ [Ev.skippedMissing a b])) ∧
    (existsF a st.fs = false ∨ existsF b st.fs = false →
      ((promptLoop aD a b ("2" :: dec) [] st).1.fs = st.fs ∧
       archivedOf (promptLoop aD a b ("2" :: dec) [] st).1.evs = archivedOf st.evs ∧
       (promptLoop aD a b ("2" :: dec) [] st).1.crashed = false ∧
       (promptLoop aD a b ("2" :: dec) [] st).1.quit = false)) ∧
    (existsF a st.fs = true → lookupF b st.fs = some vb →
     lookupF aD st.fs = none → archivePathOf aD b ≠ b →
      (lookupF b (promptLoop aD a b ("1" :: dec) [] st).1.fs = none ∧
       lookupF (archivePathOf aD b) (promptLoop aD a b ("1" :: dec) [] st).1.fs =
         some vb ∧
       archivedOf (promptLoop aD a b ("1" :: dec) [] st).1.evs =
         archivedOf st.evs ++ [(b, archivePathOf aD b)] ∧
       (promptLoop aD a b ("1" :: dec) [] st).1.crashed = false)) := by
  refine ⟨?_, ?_, ?_⟩
  · intro hmiss
    rw [promptLoop_missing aD a b "1" dec st hmiss]
    exact ⟨rfl, by simp [archivedOf_append, archivedOf], hc, hq, rfl, rfl⟩
  · intro hmiss
    rw [promptLoop_missing aD a b "2" dec st hmiss]
    exact ⟨rfl, by simp [archivedOf_append, archivedOf], hc, hq⟩
  · intro hea hb hAD hpb
    have heb : existsF b st.fs = true := by simp [existsF, hb]
    rw [promptLoop_keep1 aD a b dec st hea heb]
    rw [move_to_archive_eq b aD { st with evs := st.evs ++ [Ev.prompted a b] } vb hAD hb]
    refine ⟨?_, ?_, ?_, hc⟩
    · rw [lookupF_setF_ne _ b (Ne.symm hpb) vb _]
      exact lookupF_eraseF_self b st.fs
    · exact lookupF_setF_self _ vb _
    · simp [archivedOf_append, archivedOf]

/-- Witness for C5 (amended), first conjunct: KeepFirst with the first
file absent and the second present leaves the second file alone and does
not fail. -/
theorem C5_already_absent_handling_witness :
    (promptLoop "t/duplicates_archive" "t/a" "t/b" ["1"] []
        (initSt [("t/b", 2)])).1.fs = (initSt [("t/b", 2)]).fs ∧
    archivedOf (promptLoop "t/duplicates_archive" "t/a" "t/b" ["1"] []
        (initSt [("t/b", 2)])).1.evs = archivedOf (initSt [("t/b", 2)]).evs ∧
    (promptLoop "t/duplicates_archive" "t/a" "t/b" ["1"] []
        (initSt [("t/b", 2)])).1.crashed = false ∧
    (promptLoop "t/duplicates_archive" "t/a" "t/b" ["1"] []
        (initSt [("t/b", 2)])).1.quit = false ∧
    (promptLoop "t/duplicates_archive" "t/a" "t/b" ["1"] []
        (initSt [("t/b", 2)])).2.1 = [] ∧
    (promptLoop "t/duplicates_archive" "t/a" "t/b" ["1"] []
        (initSt [("t/b", 2)])).1.evs =
      ((initSt [("t/b", 2)]).evs ++ [Ev.prompted "t/a" "t/b"]) ++
        [Ev.skippedMissing "t/a" "t/b"] :=
  (C5_already_absent_handling "t/duplicates_archive" "t/a" "t/b" 2
    (initSt [("t/b", 2)]) [] rfl rfl).1 (Or.inl (by decide))


/-! ### Claims C6, C7 -/

/-- C6, counterexample to the claim as stated: the pair `(t/a, t/b)` is
presented and the rendering attempt fails with any exception other than
`subprocess.CalledProcessError` (this is precisely what happens when the
`viu` executable is missing, which raises `FileNotFoundError`).  The
failure is reported, but the decision prompt is never shown: the `except
Exception` handler of line 189 ends with `continue`, so the queued
decision `"1"` is never read, nothing is archived, and the session moves
on - rendering failure here does skip the decision. -/
theorem C6_counterexample :
    presentsOf (runSession 1 "t" [("t/a", [("t/b", 2)])] [("t/a", 1), ("t/b", 2)]
        ["1"] [ROut.otherErr] []).evs = [("t/a", "t/b")] ∧
    promptedOf (runSession 1 "t" [("t/a", [("t/b", 2)])] [("t/a", 1), ("t/b", 2)]
        ["1"] [ROut.otherErr] []).evs = [] ∧
    archivedOf (runSession 1 "t" [("t/a", [("t/b", 2)])] [("t/a", 1), ("t/b", 2)]
        ["1"] [ROut.otherErr] []).evs = [] ∧
    (runSession 1 "t" [("t/a", [("t/b", 2)])] [("t/a", 1), ("t/b", 2)]
        ["1"] [ROut.otherErr] []).crashed = false ∧
    (runSession 1 "t" [("t/a", [("t/b", 2)])] [("t/a", 1), ("t/b", 2)]
        ["1"] [ROut.otherErr] []).quit = false :=
  ⟨by decide, by decide, by decide, by decide, by decide⟩

/-- C6 (amended): for a presented pair, only a rendering failure raised
as `subprocess.CalledProcessError` (the display tool ran and failed) is
reported with the decision prompt still shown, exactly as on success; any
other rendering exception (including a missing display tool) is reported
and then skips the decision for that pair - no prompt, no decision
consumed, no archive, no crash, no quit - and the session continues with
the next candidate. -/
theorem C6_render_failure_paths (thr : ℚ) (aD img1 : String) (m : String × ℚ)
    (st : St) (dec : List String) (ren : List ROut) (ext : List (List String))
    (hc : st.crashed = false) (hq : st.quit = false)
    (hlt : ¬ m.2 < thr)
    (h2 : existsF m.1 (removeAll (ext.headD []) st.fs) = true)
    (h1 : existsF img1 (removeAll (ext.headD []) st.fs) = true)
    (hp : canonPair img1 m.1 ∉ st.seen) :
    (ren.headD ROut.ok = ROut.cpe →
      ∃ t, (procObs thr aD img1 m st dec ren ext).1.evs =
        st.evs ++ Ev.header img1 m.1 m.2 :: Ev.present img1 m.1 ::
          Ev.renderFail img1 m.1 true :: Ev.prompted img1 m.1 :: t) ∧
    (ren.headD ROut.ok = ROut.ok →
      ∃ t, (procObs thr aD img1 m st dec ren ext).1.evs =
        st.evs ++ Ev.header img1 m.1 m.2 :: Ev.present img1 m.1 ::
          Ev.prompted img1 m.1 :: t) ∧
    (ren.headD ROut.ok = ROut.otherErr →
      (procObs thr aD img1 m st dec ren ext).1.evs =
        ((st.evs ++ [Ev.header img1 m.1 m.2]) ++ [Ev.present img1 m.1]) ++
          [Ev.renderFail img1 m.1 false] ∧
      promptedOf (procObs thr aD img1 m st dec ren ext).1.evs = promptedOf st.evs ∧
      (procObs thr aD img1 m st dec ren ext).2.1 = dec ∧
      (procObs thr aD img1 m st dec ren ext).1.crashed = false ∧
      (procObs thr aD img1 m st dec ren ext).1.quit = false ∧
      (procObs thr aD img1 m st dec ren ext).1.fs = removeAll (ext.headD []) st.fs ∧
      archivedOf (procObs thr aD img1 m st dec ren ext).1.evs = archivedOf st.evs) := by
  refine ⟨?_, ?_, ?_⟩
  · intro hr
    rw [procObs_render_cpe thr aD img1 m st dec ren ext hc hq hlt h2 hp h1 hr]
    obtain ⟨-, -, t, ht⟩ := promptLoop_parts aD img1 m.1 dec ext.tail
      { st with
        fs := removeAll (ext.headD []) st.fs,
        seen := canonPair img1 m.1 :: st.seen,
        evs := ((st.evs ++ [Ev.header img1 m.1 m.2]) ++ [Ev.present img1 m.1]) ++
          [Ev.renderFail img1 m.1 true] }
    exact ⟨t, by simpa [List.append_assoc] using ht⟩
  · intro hr
    rw [procObs_render_ok thr aD img1 m st dec ren ext hc hq hlt h2 hp h1 hr]
    obtain ⟨-, -, t, ht⟩ := promptLoop_parts aD img1 m.1 dec ext.tail
      { st with
        fs := removeAll (ext.headD []) st.fs,
        seen := canonPair img1 m.1 :: st.seen,
        evs := (st.evs ++ [Ev.header img1 m.1 m.2]) ++ [Ev.present img1 m.1] }
    exact ⟨t, by simpa [List.append_assoc] using ht⟩
  · intro hr
    rw [procObs_render_other thr aD img1 m st dec ren ext hc hq hlt h2 hp h1 hr]
    refine ⟨rfl, ?_, rfl, hc, hq, rfl, ?_⟩
    · simp [promptedOf_append, promptedOf]
    · simp [archivedOf_append, archivedOf]

/-- Witness for C6 (amended), `CalledProcessError` conjunct: with the
rendering script reporting a `viu` failure, the prompt is still shown. -/
theorem C6_render_failure_paths_witness :
    ∃ t, (procObs 1 "t/duplicates_archive" "t/a" ("t/b", 2)
        (initSt [("t/a", 1), ("t/b", 2)]) ["s"] [ROut.cpe] []).1.evs =
      (initSt [("t/a", 1), ("t/b", 2)]).evs ++
        Ev.header "t/a" "t/b" 2 :: Ev.present "t/a" "t/b" ::
          Ev.renderFail "t/a" "t/b" true :: Ev.prompted "t/a" "t/b" :: t :=
  (C6_render_failure_paths 1 "t/duplicates_archive" "t/a" ("t/b", 2)
    (initSt [("t/a", 1), ("t/b", 2)]) ["s"] [ROut.cpe] [] rfl rfl
    (by decide) (by decide) (by decide) (by decide)).1 (by decide)

/-- C7, counterexample to the claim as stated: two candidate pairs are
queued; pair 1 `(t/a, t/b)` is presented and, while the session waits at
the prompt, `t/a` is removed externally; the user then chooses Quit.
Because the existence re-check of line 199 fires before the choice is
dispatched, the `"q"` is discarded with the pair, the session does NOT
terminate, and pair 2 `(t/c, t/d)` is still presented (its prompt
consumes the following `"s"`). -/
theorem C7_counterexample :
    presentsOf (runSession 1 "t" [("t/a", [("t/b", 2)]), ("t/c", [("t/d", 2)])]
        [("t/a", 1), ("t/b", 2), ("t/c", 3), ("t/d", 4)]
        ["q", "s"] [] [[], ["t/a"]]).evs = [("t/a", "t/b"), ("t/c", "t/d")] ∧
    promptedOf (runSession 1 "t" [("t/a", [("t/b", 2)]), ("t/c", [("t/d", 2)])]
        [("t/a", 1), ("t/b", 2), ("t/c", 3), ("t/d", 4)]
        ["q", "s"] [] [[], ["t/a"]]).evs = [("t/a", "t/b"), ("t/c", "t/d")] ∧
    (runSession 1 "t" [("t/a", [("t/b", 2)]), ("t/c", [("t/d", 2)])]
        [("t/a", 1), ("t/b", 2), ("t/c", 3), ("t/d", 4)]
        ["q", "s"] [] [[], ["t/a"]]).quit = false :=
  ⟨by decide, by decide, by decide⟩

/-- C7 (amended): when Quit is chosen on a pair whose two files both
still exist at the decision check, the session terminates immediately
with no further filesystem action and no new event beyond the prompt;
once the quit flag is set, the remaining matches of the current entry and
all remaining entries are left completely unprocessed (no archive
actions, no seen-set entries, no presentations, no script consumption).
If a file of the pair vanished while awaiting the decision, the
line-199 re-check discards the Quit together with the pair and the
session continues. -/
theorem C7_quit_semantics :
    (∀ (aD a b : String) (dec : List String) (st : St),
      existsF a st.fs = true → existsF b st.fs = true →
      promptLoop aD a b ("q" :: dec) [] st =
        ({ st with evs := st.evs ++ [Ev.prompted a b], quit := true }, dec, [])) ∧
    (∀ (thr : ℚ) (aD img1 : String) (ms : List (String × ℚ)) (st : St)
      (dec : List String) (ren : List ROut) (ext : List (List String)),
      st.quit = true →
      runMatches thr aD img1 ms st dec ren ext = (st, dec, ren, ext)) ∧
    (∀ (thr : ℚ) (aD : String) (es : List (String × List (String × ℚ))) (st : St)
      (dec : List String) (ren : List ROut) (ext : List (List String)),
      st.quit = true →
      runEntries thr aD es st dec ren ext = (st, dec, ren, ext)) := by
  refine ⟨?_, ?_, ?_⟩
  · intro aD a b dec st ha hb
    exact promptLoop_quit_eq aD a b dec st ha hb
  · intro thr aD img1 ms st dec ren ext hqt
    exact runMatches_halt thr aD img1 ms st dec ren ext (Or.inr hqt)
  · intro thr aD es st dec ren ext hqt
    exact runEntries_halt thr aD es st dec ren ext (Or.inr hqt)

/-- Witness for C7 (amended): a concrete Quit with both files present
terminates the loop at once, and a quit state passes through the
remaining entries untouched. -/
theorem C7_quit_semantics_witness :
    promptLoop "t/duplicates_archive" "t/a" "t/b" ["q", "s"] []
        (initSt [("t/a", 1), ("t/b", 2)]) =
      ({ initSt [("t/a", 1), ("t/b", 2)] with
          evs := (initSt [("t/a", 1), ("t/b", 2)]).evs ++ [Ev.prompted "t/a" "t/b"],
          quit := true }, ["s"], []) ∧
    runEntries 1 "t/duplicates_archive" [("t/c", [("t/d", 2)])]
        ⟨[("t/c", 3), ("t/d", 4)], [], [], false, true⟩ ["s"] [] [] =
      (⟨[("t/c", 3), ("t/d", 4)], [], [], false, true⟩, ["s"], [], []) :=
  ⟨C7_quit_semantics.1 "t/duplicates_archive" "t/a" "t/b" ["s"]
      (initSt [("t/a", 1), ("t/b", 2)]) (by decide) (by decide),
   C7_quit_semantics.2.2 1 "t/duplicates_archive" [("t/c", [("t/d", 2)])]
      ⟨[("t/c", 3), ("t/d", 4)], [], [], false, true⟩ ["s"] [] [] rfl⟩


/-! ### Claims C8, C9, C10 -/

/-- C8: the code has no collision policy.  Archiving `t/x.jpg` while a
different file (identity 2) already sits at
`t/duplicates_archive/x.jpg` silently replaces it: `shutil.move` resolves
to an overwriting rename, the previously archived file is lost, no error
is raised and nothing beyond the ordinary "Moved to archive" report is
printed.  This contradicts the required explicit, deterministic
collision handling. -/
theorem C8_silent_overwrite :
    move_to_archive "t/x.jpg" "t/duplicates_archive"
        ⟨[("t/x.jpg", 1), ("t/duplicates_archive/x.jpg", 2)], [], [], false, false⟩ =
      ⟨[("t/duplicates_archive/x.jpg", 1)], [],
        [Ev.archived "t/x.jpg" "t/duplicates_archive/x.jpg"], false, false⟩ := by
  decide

/-- C9, counterexample to the claim as stated: a regular file occupies
the archive-directory path `t/duplicates_archive`.  Two candidate pairs
are queued; on the first KeepFirst decision,
`archive_dir.mkdir(exist_ok=True)` raises an uncaught `FileExistsError`
inside the decision loop, the session crashes mid-pair, and the second
candidate is never examined - a per-pair error that terminates the
process instead of being caught and reported inline. -/
theorem C9_counterexample :
    (runSession 1 "t" [("t/a", [("t/b", 2)]), ("t/c", [("t/d", 2)])]
        [("t/a", 1), ("t/b", 2), ("t/c", 3), ("t/d", 4), ("t/duplicates_archive", 9)]
        ["1", "s"] [] []).crashed = true ∧
    presentsOf (runSession 1 "t" [("t/a", [("t/b", 2)]), ("t/c", [("t/d", 2)])]
        [("t/a", 1), ("t/b", 2), ("t/c", 3), ("t/d", 4), ("t/duplicates_archive", 9)]
        ["1", "s"] [] []).evs = [("t/a", "t/b")] ∧
    archivedOf (runSession 1 "t" [("t/a", [("t/b", 2)]), ("t/c", [("t/d", 2)])]
        [("t/a", 1), ("t/b", 2), ("t/c", 3), ("t/d", 4), ("t/duplicates_archive", 9)]
        ["1", "s"] [] []).evs = [] :=
  ⟨by decide, by decide, by decide⟩

/-- C9 (amended): configuration errors do fail fast - a wrong argument
count exits non-zero with a usage message, and a target that is not an
existing directory aborts with a non-zero exit (an uncaught
`FileNotFoundError`/`NotADirectoryError` from `target_dir.iterdir()`)
before any candidate is processed.  But it is not true that every
per-pair error is caught: an archive-step failure, such as a regular
file occupying the archive-directory path, raises through the decision
loop uncaught and terminates the session mid-pair. -/
theorem C9_error_taxonomy :
    (∀ (argv : List String) (targetOk : Bool) (thr : ℚ) (tgt : String)
      (raw : List (String × List (String × ℚ))) (fs0 : List (String × Nat))
      (dec : List String) (ren : List ROut) (ext : List (List String)),
      (argv.length < 2 ∨ 3 < argv.length) →
      ∃ e, mainModel argv targetOk thr tgt raw fs0 dec ren ext = Except.error e) ∧
    (∀ (argv : List String) (thr : ℚ) (tgt : String)
      (raw : List (String × List (String × ℚ))) (fs0 : List (String × Nat))
      (dec : List String) (ren : List ROut) (ext : List (List String)),
      ∃ e, mainModel argv false thr tgt raw fs0 dec ren ext = Except.error e) ∧
    (∀ (aD a b : String) (dec : List String) (st : St) (w : Nat),
      existsF a st.fs = true → existsF b st.fs = true →
      lookupF aD st.fs = some w →
      (promptLoop aD a b ("1" :: dec) [] st).1.crashed = true) := by
  refine ⟨?_, ?_, ?_⟩
  · intro argv targetOk thr tgt raw fs0 dec ren ext h
    exact ⟨"Usage: python script.py <target_dir> [similarity]", by simp [mainModel, h]⟩
  · intro argv thr tgt raw fs0 dec ren ext
    by_cases h : argv.length < 2 ∨ 3 < argv.length
    · exact ⟨"Usage: python script.py <target_dir> [similarity]", by simp [mainModel, h]⟩
    · exact ⟨"uncaught FileNotFoundError or NotADirectoryError from target_dir.iterdir()",
        by simp [mainModel, h]⟩
  · intro aD a b dec st w ha hb hAD
    rw [promptLoop_keep1 aD a b dec st ha hb]
    rw [move_to_archive_blocked b aD { st with evs := st.evs ++ [Ev.prompted a b] } w hAD]

/-- Witness for C9 (amended): a missing target directory yields an error
exit, and a concrete blocked archive directory crashes the decision
step. -/
theorem C9_error_taxonomy_witness :
    (∃ e, mainModel ["dedupe.py"] true 1 "t" [] [] [] [] [] = Except.error e) ∧
    (∃ e, mainModel ["dedupe.py", "t"] false 1 "t" [] [] [] [] [] = Except.error e) ∧
    (promptLoop "t/duplicates_archive" "t/a" "t/b" ["1"] []
        (initSt [("t/a", 1), ("t/b", 2), ("t/duplicates_archive", 9)])).1.crashed =
      true :=
  ⟨C9_error_taxonomy.1 ["dedupe.py"] true 1 "t" [] [] [] [] [] (by decide),
   C9_error_taxonomy.2.1 ["dedupe.py", "t"] 1 "t" [] [] [] [] [],
   C9_error_taxonomy.2.2 "t/duplicates_archive" "t/a" "t/b" []
     (initSt [("t/a", 1), ("t/b", 2), ("t/duplicates_archive", 9)]) 9
     (by decide) (by decide) (by decide)⟩

/-- C10, counterexample to the claim as stated: after KeepSecond archives
`t/a` on the pair `(t/a, t/b)`, the next observation `(t/a, t/c)` from
`t/a`'s still-running match list has its first file missing at dequeue
time.  The pair is nonetheless inserted into `compared_pairs` (line 170
runs before the line-178 re-check that skips the pair), so a pair that
was never presented ends up in the seen set and could never be presented
later in the session. -/
theorem C10_counterexample :
    ("t/a", "t/c") ∈ (runSession 1 "t"
        [("t/a", [("t/b", 2), ("t/c", 2)]), ("t/c", [("t/a", 2)])]
        [("t/a", 1), ("t/b", 2), ("t/c", 3)] ["2"] [] []).seen ∧
    presentsOf (runSession 1 "t"
        [("t/a", [("t/b", 2), ("t/c", 2)]), ("t/c", [("t/a", 2)])]
        [("t/a", 1), ("t/b", 2), ("t/c", 3)] ["2"] [] []).evs =
      [("t/a", "t/b")] ∧
    ("t/a", "t/c") ∉ presentsOf (runSession 1 "t"
        [("t/a", [("t/b", 2), ("t/c", 2)]), ("t/c", [("t/a", 2)])]
        [("t/a", 1), ("t/b", 2), ("t/c", 3)] ["2"] [] []).evs :=
  ⟨by decide, by decide, by decide⟩

/-- C10 (amended): a candidate observation skipped by the threshold
check, or because its SECOND file is missing at dequeue time, is not
added to the seen-pair set; but an observation whose FIRST file is
missing at dequeue time (caught only by the re-check of line 178, after
the line-170 insertion) IS added to the seen set despite never being
presented, so that pair cannot be presented later in the session through
any other raw-map entry. -/
theorem C10_seen_update_on_skip (thr : ℚ) (aD img1 : String) (m : String × ℚ)
    (st : St) (dec : List String) (ren : List ROut) (ext : List (List String))
    (hc : st.crashed = false) (hq : st.quit = false) :
    (m.2 < thr →
      (procObs thr aD img1 m st dec ren ext).1.seen = st.seen ∧
      presentsOf (procObs thr aD img1 m st dec ren ext).1.evs = presentsOf st.evs) ∧
    (¬ m.2 < thr → existsF m.1 (removeAll (ext.headD []) st.fs) = false →
      (procObs thr aD img1 m st dec ren ext).1.seen = st.seen ∧
      presentsOf (procObs thr aD img1 m st dec ren ext).1.evs = presentsOf st.evs) ∧
    (¬ m.2 < thr → existsF m.1 (removeAll (ext.headD []) st.fs) = true →
      existsF img1 (removeAll (ext.headD []) st.fs) = false →
      canonPair img1 m.1 ∉ st.seen →
      (procObs thr aD img1 m st dec ren ext).1.seen = canonPair img1 m.1 :: st.seen ∧
      presentsOf (procObs thr aD img1 m st dec ren ext).1.evs = presentsOf st.evs) := by
  refine ⟨?_, ?_, ?_⟩
  · intro hlt
    rw [procObs_below thr aD img1 m st dec ren ext hc hq hlt]
    exact ⟨rfl, rfl⟩
  · intro hlt h2
    rw [procObs_gone2 thr aD img1 m st dec ren ext hc hq hlt h2]
    exact ⟨rfl, rfl⟩
  · intro hlt h2 h1 hp
    rw [procObs_gone1 thr aD img1 m st dec ren ext hc hq hlt h2 hp h1]
    exact ⟨rfl, by simp [presentsOf_append, presentsOf]⟩

/-- Witness for C10 (amended): the first image is gone at dequeue while
the second exists; the pair is added to the seen set without being
presented. -/
theorem C10_seen_update_on_skip_witness :
    (procObs 1 "t/duplicates_archive" "t/a" ("t/b", 2)
        (initSt [("t/b", 2)]) [] [] []).1.seen =
      canonPair "t/a" "t/b" :: (initSt [("t/b", 2)]).seen ∧
    presentsOf (procObs 1 "t/duplicates_archive" "t/a" ("t/b", 2)
        (initSt [("t/b", 2)]) [] [] []).1.evs = presentsOf (initSt [("t/b", 2)]).evs :=
  (C10_seen_update_on_skip 1 "t/duplicates_archive" "t/a" ("t/b", 2)
    (initSt [("t/b", 2)]) [] [] [] rfl rfl).2.2
    (by decide) (by decide) (by decide) (by decide)


/-! ### The session refines the pure candidate scan -/

/-- The seen set after the whole candidate scan. -/
def normMapSeen (thr : ℚ) :
    List (String × List (String × ℚ)) → List (String × String) → List (String × String)
  | [], seen => seen
  | (a, ms) :: es, seen => normMapSeen thr es (normEntrySeen thr a ms seen)

theorem promptLoop_skip_eq' (aD a b d : String) (dec : List String) (st : St)
    (hd : lowerStr d = "s")
    (ha : existsF a st.fs = true) (hb : existsF b st.fs = true) :
    promptLoop aD a b (d :: dec) [] st =
      ({ st with evs := st.evs ++ [Ev.prompted a b] }, dec, []) := by
  have h1 : ("s" : String) ≠ "1" := by decide
  have h2 : ("s" : String) ≠ "2" := by decide
  simp only [promptLoop]
  simp [removeAll, ha, hb, hd, h1, h2]

theorem procObs_skip_noemit (thr : ℚ) (aD img1 : String) (m : String × ℚ)
    (st : St) (dec : List String)
    (hc : st.crashed = false) (hq : st.quit = false)
    (h2 : existsF m.1 st.fs = true)
    (hne : m.2 < thr ∨ canonPair img1 m.1 ∈ st.seen) :
    procObs thr aD img1 m st dec [] [] = (st, dec, [], []) := by
  by_cases hlt : m.2 < thr
  · rw [procObs_below thr aD img1 m st dec [] [] hc hq hlt]
    rfl
  · have hp : canonPair img1 m.1 ∈ st.seen := by
      rcases hne with h | h
      · exact absurd h hlt
      · exact h
    rw [procObs_seen thr aD img1 m st dec [] [] hc hq hlt h2 hp]
    rfl

theorem procObs_skip_emit (thr : ℚ) (aD img1 : String) (m : String × ℚ)
    (st : St) (d : String) (dec : List String)
    (hc : st.crashed = false) (hq : st.quit = false)
    (hd : lowerStr d = "s")
    (h1 : existsF img1 st.fs = true) (h2 : existsF m.1 st.fs = true)
    (hlt : ¬ m.2 < thr) (hp : canonPair img1 m.1 ∉ st.seen) :
    procObs thr aD img1 m st (d :: dec) [] [] =
      ({ st with
          seen := canonPair img1 m.1 :: st.seen,
          evs := (((st.evs ++ [Ev.header img1 m.1 m.2]) ++ [Ev.present img1 m.1]) ++
            [Ev.prompted img1 m.1]) },
        dec, [], []) := by
  rw [procObs_render_ok thr aD img1 m st (d :: dec) [] [] hc hq hlt h2 hp h1 rfl]
  rw [show (([] : List (List String)).tail) = [] from rfl]
  rw [promptLoop_skip_eq' aD img1 m.1 d dec
    { st with
      fs := removeAll (([] : List (List String)).headD []) st.fs,
      seen := canonPair img1 m.1 :: st.seen,
      evs := (st.evs ++ [Ev.header img1 m.1 m.2]) ++ [Ev.present img1 m.1] }
    hd h1 h2]
  rfl

theorem runMatches_skip (thr : ℚ) (aD img1 : String) :
    ∀ (ms : List (String × ℚ)) (st : St) (dec : List String),
      st.crashed = false → st.quit = false →
      existsF img1 st.fs = true →
      (∀ m ∈ ms, existsF m.1 st.fs = true) →
      (∀ d ∈ dec, lowerStr d = "s") →
      ms.length ≤ dec.length →
      (runMatches thr aD img1 ms st dec [] []).1.fs = st.fs ∧
      (runMatches thr aD img1 ms st dec [] []).1.crashed = false ∧
      (runMatches thr aD img1 ms st dec [] []).1.quit = false ∧
      (runMatches thr aD img1 ms st dec [] []).1.seen =
        normEntrySeen thr img1 ms st.seen ∧
      presentsOf (runMatches thr aD img1 ms st dec [] []).1.evs =
        presentsOf st.evs ++ (normEntryOut thr img1 ms st.seen).map Prod.fst ∧
      (∃ n, (runMatches thr aD img1 ms st dec [] []).2.1 = dec.drop n ∧
        n ≤ ms.length) ∧
      (runMatches thr aD img1 ms st dec [] []).2.2.1 = [] ∧
      (runMatches thr aD img1 ms st dec [] []).2.2.2 = []
  | [], st, dec, hc, hq, h1, hms, hdec, hlen => by
      refine ⟨rfl, hc, hq, rfl, ?_, ⟨0, rfl, Nat.le_refl 0⟩, rfl, rfl⟩
      simp [runMatches, normEntryOut]
  | m :: ms, st, dec, hc, hq, h1, hms, hdec, hlen => by
      have h2 : existsF m.1 st.fs = true := hms m (List.mem_cons_self m ms)
      have hms' : ∀ x ∈ ms, existsF x.1 st.fs = true :=
        fun x hx => hms x (List.mem_cons_of_mem m hx)
      by_cases hlt : m.2 < thr
      · have heq := procObs_skip_noemit thr aD img1 m st dec hc hq h2 (Or.inl hlt)
        have ih := runMatches_skip thr aD img1 ms st dec hc hq h1 hms' hdec
          (Nat.le_of_succ_le hlen)
        simp only [runMatches, heq]
        obtain ⟨hfs, hcc, hqq, hsn, hpr, ⟨n, hdrop, hn⟩, hr1, hr2⟩ := ih
        refine ⟨hfs, hcc, hqq, ?_, ?_, ⟨n, hdrop, Nat.le_succ_of_le hn⟩, hr1, hr2⟩
        · rw [hsn]
          simp [normEntrySeen, hlt]
        · rw [hpr]
          simp [normEntryOut, hlt]
      · by_cases hp : canonPair img1 m.1 ∈ st.seen
        · have heq := procObs_skip_noemit thr aD img1 m st dec hc hq h2 (Or.inr hp)
          have ih := runMatches_skip thr aD img1 ms st dec hc hq h1 hms' hdec
            (Nat.le_of_succ_le hlen)
          simp only [runMatches, heq]
          obtain ⟨hfs, hcc, hqq, hsn, hpr, ⟨n, hdrop, hn⟩, hr1, hr2⟩ := ih
          refine ⟨hfs, hcc, hqq, ?_, ?_, ⟨n, hdrop, Nat.le_succ_of_le hn⟩, hr1, hr2⟩
          · rw [hsn]
            simp [normEntrySeen, hlt, hp]
          · rw [hpr]
            simp [normEntryOut, hlt, hp]
        · obtain ⟨d, dec', rfl⟩ : ∃ d dec', dec = d :: dec' := by
            cases dec with
            | nil => exact absurd hlen (by simp)
            | cons d dec' => exact ⟨d, dec', rfl⟩
          have hd : lowerStr d = "s" := hdec d (List.mem_cons_self d dec')
          have hdec' : ∀ x ∈ dec', lowerStr x = "s" :=
            fun x hx => hdec x (List.mem_cons_of_mem d hx)
          have heq := procObs_skip_emit thr aD img1 m st d dec' hc hq hd h1 h2 hlt hp
          have ih := runMatches_skip thr aD img1 ms
            { st with
              seen := canonPair img1 m.1 :: st.seen,
              evs := (((st.evs ++ [Ev.header img1 m.1 m.2]) ++ [Ev.present img1 m.1]) ++
                [Ev.prompted img1 m.1]) }
            dec' hc hq h1 hms' hdec' (Nat.le_of_succ_le_succ hlen)
          simp only [runMatches, heq]
          obtain ⟨hfs, hcc, hqq, hsn, hpr, ⟨n, hdrop, hn⟩, hr1, hr2⟩ := ih
          refine ⟨hfs, hcc, hqq, ?_, ?_, ⟨n + 1, hdrop, Nat.succ_le_succ hn⟩, hr1, hr2⟩
          · rw [hsn]
            simp [normEntrySeen, hlt, hp]
          · rw [hpr]
            simp only [normEntryOut, hlt, if_false, hp]
            simp [presentsOf_append, presentsOf]

theorem runEntries_skip (thr : ℚ) (aD : String) :
    ∀ (es : List (String × List (String × ℚ))) (st : St) (dec : List String),
      st.crashed = false → st.quit = false →
      (∀ e ∈ es, existsF e.1 st.fs = true ∧ ∀ m ∈ e.2, existsF m.1 st.fs = true) →
      (∀ d ∈ dec, lowerStr d = "s") →
      (es.map (fun e => e.2.length)).sum ≤ dec.length →
      (runEntries thr aD es st dec [] []).1.fs = st.fs ∧
      (runEntries thr aD es st dec [] []).1.seen = normMapSeen thr es st.seen ∧
      presentsOf (runEntries thr aD es st dec [] []).1.evs =
        presentsOf st.evs ++ (normMapOut thr es st.seen).map Prod.fst
  | [], st, dec, hc, hq, hall, hdec, hlen => by
      refine ⟨rfl, rfl, ?_⟩
      simp [runEntries, normMapOut, normMapSeen]
  | (img1, ms) :: es, st, dec, hc, hq, hall, hdec, hlen => by
      have h1 : existsF img1 st.fs = true := (hall (img1, ms) (List.mem_cons_self _ _)).1
      have hms : ∀ m ∈ ms, existsF m.1 st.fs = true :=
        (hall (img1, ms) (List.mem_cons_self _ _)).2
      have hmlen : ms.length ≤ dec.length := by
        refine le_trans ?_ hlen
        simp [Nat.le_add_right]
      have hM := runMatches_skip thr aD img1 ms st dec hc hq h1 hms hdec hmlen
      obtain ⟨hfs, hcc, hqq, hsn, hpr, ⟨n, hdrop, hn⟩, hr1, hr2⟩ := hM
      have hguard : (st.crashed || st.quit) = false := by simp [hc, hq]
      have hE : runEntries thr aD ((img1, ms) :: es) st dec [] [] =
          runEntries thr aD es (runMatches thr aD img1 ms st dec [] []).1
            (runMatches thr aD img1 ms st dec [] []).2.1
            (runMatches thr aD img1 ms st dec [] []).2.2.1
            (runMatches thr aD img1 ms st dec [] []).2.2.2 := by
        simp [runEntries, hguard, h1]
      rw [hE, hr1, hr2, hdrop]
      have hall' : ∀ e ∈ es,
          existsF e.1 (runMatches thr aD img1 ms st dec [] []).1.fs = true ∧
          ∀ m ∈ e.2, existsF m.1 (runMatches thr aD img1 ms st dec [] []).1.fs = true := by
        intro e he
        rw [hfs]
        exact hall e (List.mem_cons_of_mem _ he)
      have hdec' : ∀ d ∈ dec.drop n, lowerStr d = "s" :=
        fun d hd => hdec d (List.mem_of_mem_drop hd)
      have hlen' : (es.map (fun e => e.2.length)).sum ≤ (dec.drop n).length := by
        rw [List.length_drop]
        have : (es.map (fun e => e.2.length)).sum + n ≤ dec.length := by
          calc (es.map (fun e => e.2.length)).sum + n
              ≤ (es.map (fun e => e.2.length)).sum + ms.length := by
                exact Nat.add_le_add_left hn _
            _ = ms.length + (es.map (fun e => e.2.length)).sum := Nat.add_comm _ _
            _ = (((img1, ms) :: es).map (fun e => e.2.length)).sum := by simp
            _ ≤ dec.length := hlen
        omega
      have ihE := runEntries_skip thr aD es
        (runMatches thr aD img1 ms st dec [] []).1 (dec.drop n) hcc hqq hall' hdec' hlen'
      obtain ⟨hfs2, hsn2, hpr2⟩ := ihE
      refine ⟨by rw [hfs2, hfs], ?_, ?_⟩
      · rw [hsn2, hsn]
        rfl
      · rw [hpr2, hpr, hsn]
        simp [normMapOut, List.append_assoc]

/-- The interactive session is a refinement of the pure candidate scan:
with every file referenced by the raw map present, no external
interference, successful rendering, and a Skip decision for every
prompt, the canonical pairs the session presents, in order, are exactly
the edges `normalize` emits. -/
theorem session_agrees_with_normalize (thr : ℚ) (tgt : String)
    (raw : List (String × List (String × ℚ))) (fs0 : List (String × Nat))
    (dec : List String)
    (hall : ∀ e ∈ raw, existsF e.1 fs0 = true ∧ ∀ m ∈ e.2, existsF m.1 fs0 = true)
    (hdec : ∀ d ∈ dec, lowerStr d = "s")
    (hlen : (raw.map (fun e => e.2.length)).sum ≤ dec.length) :
    presentsOf (runSession thr tgt raw fs0 dec [] []).evs =
      (normalize raw thr).map Prod.fst := by
  have h := runEntries_skip thr (archiveDirOf tgt) raw (initSt fs0) dec rfl rfl
    hall hdec hlen
  obtain ⟨-, -, hpr⟩ := h
  rw [show runSession thr tgt raw fs0 dec [] [] =
      (runEntries thr (archiveDirOf tgt) raw (initSt fs0) dec [] []).1 from rfl]
  rw [hpr]
  simp [initSt, presentsOf, normalize]


end Dedupe
